import Mathlib

/-!
Shallow embedding of the development SDK-mock layer of the
bizarre-ball-toss repository (directory src/.remix): the game-state codec
(function normalizeGameState in components/Panels/GameStatePanel.tsx), the
client SDK facade (class FarcadeSDKMock) and the dev host controller
(class RemixDevHostController), both from src/.remix/index.tsx, plus the
storage-key helpers.  JavaScript objects inspected by the codec are
modelled by the inductive JsValue; the stateful facade and host are
modelled as explicit state passing.  Durable storage is modelled as
always available (the unavailable-storage code paths degrade to no-ops
and are outside every claim), with the typed round trip
JSON.stringify/JSON.parse modelled as the identity on the stored record.
-/

namespace Remix

/-- JavaScript value as far as the dev tooling inspects it.  The codec
distinguishes the undefined value, primitives, arrays and plain objects;
an object is its list of key/value pairs in insertion order (JavaScript
objects preserve string-key insertion order, and spread/rest preserve it). -/
inductive JsValue where
  | undef : JsValue
  | null : JsValue
  | bool : Bool → JsValue
  | num : Int → JsValue
  | str : String → JsValue
  | arr : List JsValue → JsValue
  | obj : List (String × JsValue) → JsValue

/-- Test used to model the JavaScript expression (k in raw): key presence.
JavaScript objects never hold duplicate keys, so all helpers below are
stated for (and used on) duplicate-free key lists. -/
def jsHasKey (k : String) : List (String × JsValue) → Bool
  | [] => false
  | p :: rest => p.1 == k || jsHasKey k rest

/-- Property access raw[k]: the stored value, or undefined when the key is
absent. -/
def jsGet (k : String) : List (String × JsValue) → JsValue
  | [] => JsValue.undef
  | p :: rest => if p.1 == k then p.2 else jsGet k rest

/-- Rest destructuring (the pattern with key k removed), as in
const (data, ...rest) = raw. -/
def jsRemoveKey (k : String) : List (String × JsValue) → List (String × JsValue)
  | [] => []
  | p :: rest => if p.1 == k then jsRemoveKey k rest else p :: jsRemoveKey k rest

/-- Spread-with-override (...rest, k: v): an existing key keeps its
position and gets the new value, a new key is appended at the end. -/
def jsSetKey (k : String) (v : JsValue) : List (String × JsValue) → List (String × JsValue)
  | [] => [(k, v)]
  | p :: rest => if p.1 == k then (k, v) :: rest else p :: jsSetKey k v rest

/-- Test for the undefined value (the comparison x === undefined). -/
def JsValue.isUndef : JsValue → Bool
  | JsValue.undef => true
  | _ => false

/-- Test for a plain object (the branch taken after
!raw || typeof raw !== 'object'; null and primitives fail it, and arrays,
though typeof-object in JavaScript, carry neither a gameState nor a data
property, so they fall through to the final return raw as well). -/
def JsValue.isObjB : JsValue → Bool
  | JsValue.obj _ => true
  | _ => false

/-- Game-State Codec, translated from normalizeGameState in
src/.remix/components/Panels/GameStatePanel.tsx lines 17-41: non-objects
pass through; an object with a gameState key drops any data key, and only
when its gameState value is undefined while its data value is defined does
the data value move into gameState; an object with only a data key gets
data renamed to gameState; anything else passes through. -/
def normalizeGameState : JsValue → JsValue
  | JsValue.obj kvs =>
    if jsHasKey "gameState" kvs then
      let rest := jsRemoveKey "data" kvs
      let d := jsGet "data" kvs
      if (jsGet "gameState" rest).isUndef && !(d.isUndef) then
        JsValue.obj (jsSetKey "gameState" d rest)
      else
        JsValue.obj rest
    else if jsHasKey "data" kvs then
      let d := jsGet "data" kvs
      let rest := jsRemoveKey "data" kvs
      JsValue.obj (jsSetKey "gameState" d rest)
    else
      JsValue.obj kvs
  | v => v

namespace CodecLemmas

theorem hasKey_setKey_self (k : String) (v : JsValue) (kvs : List (String × JsValue)) :
    jsHasKey k (jsSetKey k v kvs) = true := by
  induction kvs with
  | nil => simp [jsSetKey, jsHasKey]
  | cons q qs ih =>
    by_cases hq : (q.1 == k) = true
    · simp [jsSetKey, jsHasKey, hq]
    · simp only [jsSetKey, hq, if_false, Bool.false_eq_true]
      simp only [jsHasKey, ih, Bool.or_true]

theorem hasKey_removeKey_self (k : String) (kvs : List (String × JsValue)) :
    jsHasKey k (jsRemoveKey k kvs) = false := by
  induction kvs with
  | nil => rfl
  | cons q qs ih =>
    by_cases hq : (q.1 == k) = true
    · simpa [jsRemoveKey, hq] using ih
    · rw [Bool.not_eq_true] at hq
      simp [jsRemoveKey, jsHasKey, hq, ih]

theorem removeKey_of_not_hasKey {k : String} {kvs : List (String × JsValue)}
    (h : jsHasKey k kvs = false) : jsRemoveKey k kvs = kvs := by
  induction kvs with
  | nil => rfl
  | cons q qs ih =>
    simp only [jsHasKey, Bool.or_eq_false_iff] at h
    simp [jsRemoveKey, h.1, ih h.2]

theorem get_of_not_hasKey {k : String} {kvs : List (String × JsValue)}
    (h : jsHasKey k kvs = false) : jsGet k kvs = JsValue.undef := by
  induction kvs with
  | nil => rfl
  | cons q qs ih =>
    simp only [jsHasKey, Bool.or_eq_false_iff] at h
    simp [jsGet, h.1, ih h.2]

theorem get_setKey_self (k : String) (v : JsValue) (kvs : List (String × JsValue)) :
    jsGet k (jsSetKey k v kvs) = v := by
  induction kvs with
  | nil => simp [jsSetKey, jsGet]
  | cons q qs ih =>
    by_cases hq : (q.1 == k) = true
    · simp [jsSetKey, jsGet, hq]
    · simp [jsSetKey, jsGet, hq, ih]

theorem hasKey_setKey_other {k k' : String} (hne : k ≠ k') (v : JsValue)
    (kvs : List (String × JsValue)) :
    jsHasKey k (jsSetKey k' v kvs) = jsHasKey k kvs := by
  have hkk : (k' == k) = false := beq_eq_false_iff_ne.mpr (Ne.symm hne)
  induction kvs with
  | nil => simp [jsSetKey, jsHasKey, hkk]
  | cons q qs ih =>
    by_cases hq : (q.1 == k') = true
    · have hq1 : q.1 = k' := eq_of_beq hq
      simp [jsSetKey, jsHasKey, hq, hq1, hkk]
    · simp [jsSetKey, jsHasKey, hq, ih]

theorem hasKey_removeKey_other {k k' : String} (hne : k ≠ k')
    (kvs : List (String × JsValue)) :
    jsHasKey k (jsRemoveKey k' kvs) = jsHasKey k kvs := by
  induction kvs with
  | nil => rfl
  | cons q qs ih =>
    by_cases hq : (q.1 == k') = true
    · have hq1 : q.1 = k' := eq_of_beq hq
      have hqk : (q.1 == k) = false := by
        rw [hq1]
        exact beq_eq_false_iff_ne.mpr (Ne.symm hne)
      simp [jsRemoveKey, jsHasKey, hq, hqk, ih]
    · simp [jsRemoveKey, jsHasKey, hq, ih]

theorem get_removeKey_other {k k' : String} (hne : k ≠ k')
    (kvs : List (String × JsValue)) :
    jsGet k (jsRemoveKey k' kvs) = jsGet k kvs := by
  induction kvs with
  | nil => rfl
  | cons q qs ih =>
    by_cases hq : (q.1 == k') = true
    · have hq1 : q.1 = k' := eq_of_beq hq
      have hqk : (q.1 == k) = false := by
        rw [hq1]
        exact beq_eq_false_iff_ne.mpr (Ne.symm hne)
      simp [jsRemoveKey, jsGet, hq, hqk, ih]
    · simp [jsRemoveKey, jsGet, hq, ih]

end CodecLemmas

open CodecLemmas

/-- Entries of a JavaScript object value (empty for non-objects); used only
to observe the codec's output in theorem statements. -/
def objEntries : JsValue → List (String × JsValue)
  | JsValue.obj kvs => kvs
  | _ => []

theorem string_gs_ne_data : "gameState" ≠ "data" := by decide

theorem normalize_fix {kvs : List (String × JsValue)}
    (h1 : jsHasKey "gameState" kvs = true) (h2 : jsHasKey "data" kvs = false) :
    normalizeGameState (JsValue.obj kvs) = JsValue.obj kvs := by
  simp only [normalizeGameState]
  rw [if_pos h1, removeKey_of_not_hasKey h2, get_of_not_hasKey h2]
  simp [JsValue.isUndef]

theorem normalize_obj_branch1_true {kvs : List (String × JsValue)}
    (h1 : jsHasKey "gameState" kvs = true)
    (hc : ((jsGet "gameState" (jsRemoveKey "data" kvs)).isUndef
            && !((jsGet "data" kvs).isUndef)) = true) :
    normalizeGameState (JsValue.obj kvs)
      = JsValue.obj (jsSetKey "gameState" (jsGet "data" kvs) (jsRemoveKey "data" kvs)) := by
  simp only [normalizeGameState]
  rw [if_pos h1, if_pos hc]

theorem normalize_obj_branch1_false {kvs : List (String × JsValue)}
    (h1 : jsHasKey "gameState" kvs = true)
    (hc : ¬ ((jsGet "gameState" (jsRemoveKey "data" kvs)).isUndef
            && !((jsGet "data" kvs).isUndef)) = true) :
    normalizeGameState (JsValue.obj kvs) = JsValue.obj (jsRemoveKey "data" kvs) := by
  simp only [normalizeGameState]
  rw [if_pos h1, if_neg hc]

theorem normalize_obj_branch2 {kvs : List (String × JsValue)}
    (h1 : ¬ jsHasKey "gameState" kvs = true) (h2 : jsHasKey "data" kvs = true) :
    normalizeGameState (JsValue.obj kvs)
      = JsValue.obj (jsSetKey "gameState" (jsGet "data" kvs) (jsRemoveKey "data" kvs)) := by
  simp only [normalizeGameState]
  rw [if_neg h1, if_pos h2]

theorem normalize_obj_branch3 {kvs : List (String × JsValue)}
    (h1 : ¬ jsHasKey "gameState" kvs = true) (h2 : ¬ jsHasKey "data" kvs = true) :
    normalizeGameState (JsValue.obj kvs) = JsValue.obj kvs := by
  simp only [normalizeGameState]
  rw [if_neg h1, if_neg h2]

theorem normalize_setKey_fix (kvs : List (String × JsValue)) (d : JsValue) :
    normalizeGameState
        (JsValue.obj (jsSetKey "gameState" d (jsRemoveKey "data" kvs)))
      = JsValue.obj (jsSetKey "gameState" d (jsRemoveKey "data" kvs)) := by
  apply normalize_fix
  · exact hasKey_setKey_self _ _ _
  · rw [hasKey_setKey_other (Ne.symm string_gs_ne_data)]
    exact hasKey_removeKey_self _ _

theorem normalize_idem (v : JsValue) :
    normalizeGameState (normalizeGameState v) = normalizeGameState v := by
  cases v with
  | obj kvs =>
    by_cases h1 : jsHasKey "gameState" kvs = true
    · by_cases hc : ((jsGet "gameState" (jsRemoveKey "data" kvs)).isUndef
            && !((jsGet "data" kvs).isUndef)) = true
      · rw [normalize_obj_branch1_true h1 hc, normalize_setKey_fix]
      · rw [normalize_obj_branch1_false h1 hc]
        apply normalize_fix
        · rw [hasKey_removeKey_other string_gs_ne_data]
          exact h1
        · exact hasKey_removeKey_self _ _
    · by_cases h2 : jsHasKey "data" kvs = true
      · rw [normalize_obj_branch2 h1 h2, normalize_setKey_fix]
      · rw [normalize_obj_branch3 h1 h2, normalize_obj_branch3 h1 h2]
  | undef => rfl
  | null => rfl
  | bool b => rfl
  | num n => rfl
  | str s => rfl
  | arr l => rfl

/-- C5: the Game-State Codec is idempotent (its own output is a fixed
point, stated with structural equality of the JsValue model, which implies
deep equality); for every X it maps the object holding only a data key
with value X to the object holding only gameState with value X; every
object that has a gameState key and no data key comes back unchanged (in
the model, object identity is value identity); and every non-object input
passes through unchanged. -/
theorem c5_codec_laws :
    (∀ v : JsValue, normalizeGameState (normalizeGameState v) = normalizeGameState v)
    ∧ (∀ X : JsValue,
        normalizeGameState (JsValue.obj [("data", X)]) = JsValue.obj [("gameState", X)])
    ∧ (∀ kvs : List (String × JsValue), jsHasKey "gameState" kvs = true →
        jsHasKey "data" kvs = false →
        normalizeGameState (JsValue.obj kvs) = JsValue.obj kvs)
    ∧ (∀ v : JsValue, v.isObjB = false → normalizeGameState v = v) := by
  refine ⟨normalize_idem, ?_, ?_, ?_⟩
  · intro X
    rw [normalize_obj_branch2 (by simp [jsHasKey]) (by simp [jsHasKey])]
    simp [jsGet, jsRemoveKey, jsSetKey]
  · intro kvs h1 h2
    exact normalize_fix h1 h2
  · intro v h
    cases v with
    | obj kvs => simp [JsValue.isObjB] at h
    | undef => rfl
    | null => rfl
    | bool b => rfl
    | num n => rfl
    | str s => rfl
    | arr l => rfl

/-- Closed witness for C5: instantiates the hypothesis-bearing conjuncts of
the codec laws at concrete inputs. -/
theorem c5_codec_laws_witness :
    normalizeGameState (JsValue.obj [("gameState", JsValue.num 1)])
        = JsValue.obj [("gameState", JsValue.num 1)]
    ∧ normalizeGameState (JsValue.str "x") = JsValue.str "x" :=
  ⟨c5_codec_laws.2.2.1 [("gameState", JsValue.num 1)] (by decide) (by decide),
   c5_codec_laws.2.2.2 (JsValue.str "x") (by decide)⟩

/-- C6 counterexample: on the object with gameState holding the empty
string and data holding "x", the codec keeps the (empty, hence not
non-empty) gameState value instead of falling back to the data value as
the claim states; the code only falls back when gameState is undefined. -/
theorem c6_counterexample :
    normalizeGameState
        (JsValue.obj [("gameState", JsValue.str ""), ("data", JsValue.str "x")])
      = JsValue.obj [("gameState", JsValue.str "")]
    ∧ normalizeGameState
        (JsValue.obj [("gameState", JsValue.str ""), ("data", JsValue.str "x")])
      ≠ JsValue.obj [("gameState", JsValue.str "x")] := by
  constructor
  · rw [normalize_obj_branch1_false (by decide) (by decide)]
    simp [jsRemoveKey]
  · rw [normalize_obj_branch1_false (by decide) (by decide)]
    intro h
    have h2 := congrArg (fun v => jsGet "gameState" (objEntries v)) h
    simp [objEntries, jsGet, jsRemoveKey] at h2

/-- C6 (amended): for every object carrying both a data key and a
gameState key, the codec returns an object that exposes gameState and
never data, keeps the gameState value whenever it is defined (anything
other than undefined, including null, empty strings or empty objects),
and falls back to the data value exactly when the gameState value is
undefined and the data value is defined. -/
theorem c6_both_keys_amended (kvs : List (String × JsValue))
    (h1 : jsHasKey "gameState" kvs = true) (_h2 : jsHasKey "data" kvs = true) :
    (normalizeGameState (JsValue.obj kvs)).isObjB = true
    ∧ jsHasKey "data" (objEntries (normalizeGameState (JsValue.obj kvs))) = false
    ∧ jsHasKey "gameState" (objEntries (normalizeGameState (JsValue.obj kvs))) = true
    ∧ ((jsGet "gameState" kvs).isUndef = false →
        jsGet "gameState" (objEntries (normalizeGameState (JsValue.obj kvs)))
          = jsGet "gameState" kvs)
    ∧ ((jsGet "gameState" kvs).isUndef = true → (jsGet "data" kvs).isUndef = false →
        jsGet "gameState" (objEntries (normalizeGameState (JsValue.obj kvs)))
          = jsGet "data" kvs) := by
  have hrw : jsGet "gameState" (jsRemoveKey "data" kvs) = jsGet "gameState" kvs :=
    get_removeKey_other string_gs_ne_data kvs
  by_cases hc : ((jsGet "gameState" (jsRemoveKey "data" kvs)).isUndef
      && !((jsGet "data" kvs).isUndef)) = true
  · rw [normalize_obj_branch1_true h1 hc]
    rw [Bool.and_eq_true] at hc
    refine ⟨rfl, ?_, ?_, ?_, ?_⟩
    · simp only [objEntries]
      rw [hasKey_setKey_other (Ne.symm string_gs_ne_data)]
      exact hasKey_removeKey_self _ _
    · simp only [objEntries]
      exact hasKey_setKey_self _ _ _
    · intro hdef
      rw [hrw] at hc
      rw [hc.1] at hdef
      exact absurd hdef (by decide)
    · intro _ _
      simp only [objEntries]
      exact get_setKey_self _ _ _
  · rw [normalize_obj_branch1_false h1 hc]
    refine ⟨rfl, ?_, ?_, ?_, ?_⟩
    · simp only [objEntries]
      exact hasKey_removeKey_self _ _
    · simp only [objEntries]
      rw [hasKey_removeKey_other string_gs_ne_data]
      exact h1
    · intro _
      simp only [objEntries]
      exact hrw
    · intro hu hd
      exfalso
      apply hc
      rw [Bool.and_eq_true, hrw]
      exact ⟨hu, by rw [hd]; rfl⟩

/-- Closed witness for the amended C6: a concrete object carrying both
keys with a defined gameState value keeps that value. -/
theorem c6_both_keys_amended_witness :
    jsGet "gameState"
        (objEntries (normalizeGameState
          (JsValue.obj [("gameState", JsValue.num 1), ("data", JsValue.num 2)])))
      = JsValue.num 1 := by
  have h := (c6_both_keys_amended
    [("gameState", JsValue.num 1), ("data", JsValue.num 2)]
    (by decide) (by decide)).2.2.2.1 (by decide)
  rw [h]
  rfl


/-! Host controller and client facade model (src/.remix/index.tsx). -/

/-- Player record (index.tsx lines 94-98). -/
structure Player where
  id : String
  name : String
  imageUrl : Option String := none
deriving DecidableEq

/-- DEFAULT_PLAYERS (index.tsx lines 129-132). -/
def DEFAULT_PLAYERS : List Player :=
  [{ id := "1", name := "Player 1" }, { id := "2", name := "Player 2" }]

/-- Shape-sniffed entry of a players array inside a saved game payload, as
read by handleSaveGameState: the candidate fields p.id / p.playerId (after
String conversion) and p.name / p.username. -/
structure RawPlayer where
  id : Option String := none
  playerId : Option String := none
  name : Option String := none
  username : Option String := none
deriving DecidableEq

/-- Game-specific payload of a save request, restricted to the fields the
host sniffs (handleSaveGameState lines 825-837): a players array when one
is present, a numeric currentPlayer field, and a string turn field. -/
structure GamePayload where
  players : Option (List RawPlayer) := none
  currentPlayer : Option Int := none
  turn : Option String := none
deriving DecidableEq

/-- GameStateEnvelope (index.tsx lines 88-92). -/
structure GameStateEnvelope where
  id : String
  gameState : GamePayload
  alertUserIds : Option (List String) := none
deriving DecidableEq

/-- StoredState (index.tsx lines 107-111). -/
structure StoredState where
  gameState : Option GameStateEnvelope
  players : List Player
  currentPlayerId : Option String
deriving DecidableEq

/-- InstanceHints (index.tsx lines 113-117). -/
structure InstanceHints where
  clientId : String
  playerId : Option String := none
  playerName : Option String := none
deriving DecidableEq

/-- Payload of a save_game_state / multiplayer_save_game_state event
(handleSaveGameState line 812): the early return on a missing or
non-object data argument is modelled by Option at the call site. -/
structure SaveData where
  gameState : Option GamePayload := none
  alertUserIds : Option (List String) := none
deriving DecidableEq

/-- GameInfo (index.tsx lines 100-105). -/
structure GameInfo where
  players : List Player
  player : Player
  viewContext : String
  initialGameState : Option GameStateEnvelope
deriving DecidableEq

/-- JavaScript truthiness of an optional string: a missing value and the
empty string are both falsy (used for hints.playerId, hints.playerName and
assignment-table lookups, which the source tests with plain if). -/
def truthyStr : Option String → Option String
  | none => none
  | some s => if s = "" then none else some s

/-- JavaScript a || b on optional strings. -/
def jsOrStr (a b : Option String) : Option String :=
  match truthyStr a with
  | some s => some s
  | none => truthyStr b

/-- BROADCAST_STORAGE_KEY (index.tsx line 126): fixed global key of the
cross-window broadcast side channel, not derived from the game name. -/
def BROADCAST_STORAGE_KEY : String := "__remix_dev_host_broadcast__"

/-- PLAYER_ASSIGNMENTS_KEY (index.tsx line 127). -/
def PLAYER_ASSIGNMENTS_KEY : String := "__remix_dev_player_assignments__"

/-- Character class [a-zA-Z0-9-_] of the sanitizing regular expression in
getGameStateKey. -/
def isAllowedKeyChar (c : Char) : Bool :=
  c.isAlpha || c.isDigit || c == '-' || c == '_'

/-- Per-character replacement gameName.replace([^a-zA-Z0-9-_] global, _)
from getGameStateKey (index.tsx line 165): characters outside the class
are replaced by an underscore, not removed. -/
def sanitizeGameName (name : String) : String :=
  String.mk (name.data.map (fun c => if isAllowedKeyChar c then c else '_'))

/-- getGameStateKey (index.tsx lines 164-167; the copy in
GameStatePanel.tsx lines 66-70 builds the same string). -/
def getGameStateKey (gameName : String) : String :=
  "remix_game_state_" ++ sanitizeGameName gameName

/-- Sanitizer as the specification words it ("strips all characters
outside [A-Za-z0-9-_]"), written from the spec only in order to compare it
against the source sanitizer above. -/
def specStripSanitize (name : String) : String :=
  String.mk (name.data.filter isAllowedKeyChar)

/-- generateEnvelopeId (index.tsx lines 169-171): Date.now() plus a random
base36 suffix; both are environment inputs of the model. -/
def generateEnvelopeId (nowMs : Nat) (randSuffix : String) : String :=
  toString nowMs ++ "-" ++ randSuffix

/-- createDefaultState (index.tsx lines 156-162). -/
def createDefaultState : StoredState :=
  { gameState := none, players := DEFAULT_PLAYERS, currentPlayerId := none }

/-- Translation of readPersistedState (index.tsx lines 173-196) at the
typed level: the storage slot holds the JSON written by persistState
(JSON.stringify of a StoredState), so parsing is the identity on the
record; a missing slot yields the default state; a persisted players list
is accepted only when it is an array with at least 2 entries, and the two
default players are substituted otherwise. -/
def readPersistedState : Option StoredState → StoredState
  | none => createDefaultState
  | some parsed =>
    { gameState := parsed.gameState,
      players := if parsed.players.length ≥ 2 then parsed.players else DEFAULT_PLAYERS,
      currentPlayerId := parsed.currentPlayerId }

/-- readPlayerAssignments lookup assignments[clientId]. -/
def lookupAssign (assignments : List (String × String)) (clientId : String) : Option String :=
  (assignments.find? (fun e => e.1 == clientId)).map Prod.snd

/-- Assignment-table update assignments[clientId] = v (JavaScript object
assignment: an existing key keeps its position, a new key is appended). -/
def setAssign (assignments : List (String × String)) (clientId v : String) :
    List (String × String) :=
  if assignments.any (fun e => e.1 == clientId) then
    assignments.map (fun e => if e.1 == clientId then (clientId, v) else e)
  else assignments ++ [(clientId, v)]

/-- Player-identity resolution of handleReady (index.tsx lines 703-736):
explicit hint, then existing assignment, then single-player constant "1",
then in multiplayer the first player not among the assignment-table
values, then a synthesized player while under the 2-player cap, then "1".
The synthesize branch also appends the new player to the list. -/
def resolvePlayerId (isMultiplayer : Bool) (hints : InstanceHints)
    (assignments : List (String × String)) (players : List Player) :
    String × List Player :=
  match truthyStr hints.playerId with
  | some p => (p, players)
  | none =>
    match truthyStr (lookupAssign assignments hints.clientId) with
    | some a => (a, players)
    | none =>
      if isMultiplayer = false then ("1", players)
      else
        match players.find? (fun p => !((assignments.map Prod.snd).contains p.id)) with
        | some available => (available.id, players)
        | none =>
          if players.length ≥ 2 then ("1", players)
          else
            (toString (players.length + 1),
             players ++ [{ id := toString (players.length + 1),
                           name := "Player " ++ toString (players.length + 1) }])

/-- Player upsert of handleReady (index.tsx lines 741-761): a missing
player is appended when the list is short or the host is multiplayer; an
existing player is renamed when the hint supplies a different display
name. -/
def jsFindIndex (p : Player → Bool) : List Player → Option Nat
  | [] => none
  | q :: rest => if p q then some 0 else (jsFindIndex p rest).map (fun i => i + 1)

def upsertPlayer (isMultiplayer : Bool) (playerName : Option String)
    (resolvedPlayerId : String) (players : List Player) : List Player :=
  match jsFindIndex (fun p => p.id == resolvedPlayerId) players with
  | none =>
    if players.length < 2 ∨ isMultiplayer = true then
      players ++ [{ id := resolvedPlayerId,
                    name := (truthyStr playerName).getD ("Player " ++ resolvedPlayerId) }]
    else players
  | some i =>
    match truthyStr playerName with
    | some nm =>
      match players.get? i with
      | some old => if old.name ≠ nm then players.set i { old with name := nm } else players
      | none => players
    | none => players

/-- registerClientWindow (index.tsx lines 560-599), with a window
identified by its stable per-window client id (getClientInstanceId caches
the id on the window object, so the same window always presents the same
id): an already-registered window keeps its registration, a new one is
added.  The demo mute/unmute timer only emits events and has no state. -/
def registerClientWindow (clientWindows : List String) (clientId : String) : List String :=
  if clientWindows.contains clientId then clientWindows else clientWindows ++ [clientId]

/-- State of one RemixDevHostController plus the two durable-storage slots
it owns (the game-state key and the player-assignment key); clientWindows
lists registered client windows by client id and handledReadyClients is
the processed-ready dedup set. -/
structure HostState where
  state : StoredState
  persisted : Option StoredState
  assignments : List (String × String)
  handledReadyClients : List String
  clientWindows : List String
  isMultiplayer : Bool
deriving DecidableEq

/-- Host constructed over empty storage (index.tsx lines 534-548): the
in-memory state starts as createDefaultState and both storage slots are
empty. -/
def initHost (isMultiplayer : Bool) : HostState :=
  { state := createDefaultState, persisted := none, assignments := [],
    handledReadyClients := [], clientWindows := [], isMultiplayer := isMultiplayer }

/-- Fallback for the JavaScript expression players.find(...) || players[0]
when both are undefined (never reached on the states the host builds,
where the player list is nonempty). -/
def undefinedPlayer : Player := { id := "", name := "" }

/-- Translation of handleReady (index.tsx lines 682-799).  Returns the new
host state and the game_info reply (none when the duplicate-client guard
fires).  The asynchronous persist and the 50 ms reply delay collapse to
sequential state passing. -/
def readyResolved (h : HostState) (hints : InstanceHints) : String × List Player :=
  resolvePlayerId h.isMultiplayer hints h.assignments (readPersistedState h.persisted).players

def readyUpserted (h : HostState) (hints : InstanceHints) : List Player :=
  upsertPlayer h.isMultiplayer hints.playerName
    (readyResolved h hints).1 (readyResolved h hints).2

/-- Player list produced by a processed ready handshake: resolution
(possibly synthesizing a player), upsert, then the single-player trim of
index.tsx lines 764-766 (the players array [players[0]] is players.take 1
on the nonempty lists the host builds). -/
def readyPlayers (h : HostState) (hints : InstanceHints) : List Player :=
  if h.isMultiplayer = false ∧ (readyUpserted h hints).length > 1
  then (readyUpserted h hints).take 1 else readyUpserted h hints

def handleReady (h : HostState) (hints : InstanceHints) : HostState × Option GameInfo :=
  if h.handledReadyClients.contains hints.clientId then (h, none)
  else
    let handled := hints.clientId :: h.handledReadyClients
    let st0 := readPersistedState h.persisted
    let resolvedPlayerId := (readyResolved h hints).1
    let assignments1 := setAssign h.assignments hints.clientId resolvedPlayerId
    let players3 := readyPlayers h hints
    let st1 : StoredState := { st0 with players := players3 }
    let clientWindows1 := registerClientWindow h.clientWindows hints.clientId
    let player := (players3.find? (fun p => p.id == resolvedPlayerId)).getD
      (players3.headD undefinedPlayer)
    let gameInfo : GameInfo :=
      { players := players3, player := player, viewContext := "full_screen",
        initialGameState := st1.gameState }
    ({ h with state := st1, persisted := some st1, assignments := assignments1,
              handledReadyClients := handled, clientWindows := clientWindows1 },
     some gameInfo)

/-- Index-threading players.map((p, index) => ...) of handleSaveGameState
(index.tsx lines 827-830); the index is 1-based here because only
index + 1 is ever used. -/
def mapRawPlayersFrom : Nat → List RawPlayer → List Player
  | _, [] => []
  | i, p :: rest =>
    { id := (jsOrStr p.id p.playerId).getD (toString i),
      name := (jsOrStr p.name p.username).getD ("Player " ++ toString i) }
      :: mapRawPlayersFrom (i + 1) rest

def mapRawPlayers (ps : List RawPlayer) : List Player := mapRawPlayersFrom 1 ps

/-- Translation of handleSaveGameState (index.tsx lines 812-844): builds a
fresh envelope around the payload (or null when the payload carries no
game state), sniffs a players roster and a current-player indicator out of
the payload, persists, and returns the game_state_updated broadcast (none
models the early return on a missing data object). -/
def handleSaveGameState (h : HostState) (data : Option SaveData)
    (freshEnvelopeId : String) : HostState × Option (Option GameStateEnvelope) :=
  match data with
  | none => (h, none)
  | some d =>
    let envelope : Option GameStateEnvelope :=
      d.gameState.map (fun gs =>
        { id := freshEnvelopeId, gameState := gs, alertUserIds := d.alertUserIds })
    let st1 := { h.state with gameState := envelope }
    let st2 :=
      match d.gameState with
      | none => st1
      | some typed =>
        let stA :=
          match typed.players with
          | some ps =>
            if ps.length ≥ 2 then { st1 with players := mapRawPlayers ps } else st1
          | none => st1
        match typed.currentPlayer with
        | some n => { stA with currentPlayerId := some (toString n) }
        | none =>
          match typed.turn with
          | some t => { stA with currentPlayerId := some (if t = "w" then "1" else "2") }
          | none => stA
    ({ h with state := st2, persisted := some st2 }, some envelope)

/-- Translation of handleMultiplayerGameOver (index.tsx lines 846-855):
clears the game state and current-player pointer, persists, and clears the
player-assignment table; the scores payload is only fanned out to clients
and never stored, so it does not appear in the state transformation. -/
def handleMultiplayerGameOver (h : HostState) : HostState :=
  let st1 := { h.state with gameState := none, currentPlayerId := none }
  { h with state := st1, persisted := some st1, assignments := [] }

/-- Translation of resetState (index.tsx lines 857-865): default state
persisted, assignments cleared, registered windows and the processed-ready
dedup set cleared. -/
def resetState (h : HostState) : HostState :=
  { h with state := createDefaultState, persisted := some createDefaultState,
           assignments := [], clientWindows := [], handledReadyClients := [] }

/-- Host operation alphabet for whole-run statements. -/
inductive HostOp where
  | ready (hints : InstanceHints)
  | save (data : Option SaveData) (freshEnvelopeId : String)
  | mpGameOver
  | reset
deriving DecidableEq

def applyOp (h : HostState) : HostOp → HostState
  | HostOp.ready hints => (handleReady h hints).1
  | HostOp.save d fid => (handleSaveGameState h d fid).1
  | HostOp.mpGameOver => handleMultiplayerGameOver h
  | HostOp.reset => resetState h

def runOps (h : HostState) (ops : List HostOp) : HostState := ops.foldl applyOp h

/-! Client SDK facade (class FarcadeSDKMock, index.tsx lines 320-520). -/

/-- State of one FarcadeSDKMock instance restricted to the ready-handshake
machinery: promise objects are modelled by numeric identity tokens drawn
from nextPromiseId, and outbound postMessage calls are recorded in
messagesSent by message type. -/
structure FacadeState where
  readyPromise : Option Nat
  readySent : Bool
  messagesSent : List String
  nextPromiseId : Nat
deriving DecidableEq

/-- Freshly constructed facade. -/
def initFacade : FacadeState :=
  { readyPromise := none, readySent := false, messagesSent := [], nextPromiseId := 0 }

/-- Translation of FarcadeSDKMock.ready (index.tsx lines 388-407): an
existing promise is returned as-is; otherwise a promise is created and,
separately guarded by readySent, the single ready handshake message is
posted.  Both singlePlayer.actions.ready and multiplayer.actions.ready
delegate here. -/
def facadeReady (s : FacadeState) : FacadeState × Nat :=
  match s.readyPromise with
  | some p => (s, p)
  | none =>
    let p := s.nextPromiseId
    let s1 := { s with readyPromise := some p, nextPromiseId := p + 1 }
    let s2 :=
      if s1.readySent = false then
        { s1 with readySent := true, messagesSent := s1.messagesSent ++ ["ready"] }
      else s1
    (s2, p)

/-- Repeated ready() calls, collecting every returned promise token. -/
def iterateReady : Nat → FacadeState → FacadeState × List Nat
  | 0, s => (s, [])
  | n + 1, s =>
    let r := facadeReady s
    let rest := iterateReady n r.1
    (rest.1, r.2 :: rest.2)

/-! Facade theorems. -/

theorem facadeReady_of_promise {s : FacadeState} {p : Nat}
    (h : s.readyPromise = some p) : facadeReady s = (s, p) := by
  unfold facadeReady
  rw [h]

theorem iterateReady_stable (n : Nat) {s : FacadeState} {p : Nat}
    (h : s.readyPromise = some p) :
    iterateReady n s = (s, List.replicate n p) := by
  induction n with
  | zero => rfl
  | succ m ih =>
    simp only [iterateReady, facadeReady_of_promise h, ih]
    rfl

/-- C3: on a fresh facade every ready() call returns the same promise
token as the first call (all n + 1 calls return token 0), and the ready
handshake message is sent exactly once no matter how many times ready()
is called (the outbound log is exactly one ready message). -/
def facadeAfterFirstReady : FacadeState :=
  { readyPromise := some 0, readySent := true, messagesSent := ["ready"], nextPromiseId := 1 }

theorem c3_facade_ready_memoized (n : Nat) :
    (iterateReady (n + 1) initFacade).2 = List.replicate (n + 1) 0
    ∧ (iterateReady (n + 1) initFacade).1.messagesSent = ["ready"] := by
  have h1 : facadeReady initFacade = (facadeAfterFirstReady, 0) := rfl
  have h2 : iterateReady n facadeAfterFirstReady
      = (facadeAfterFirstReady, List.replicate n 0) :=
    iterateReady_stable n rfl
  constructor
  · simp only [iterateReady, h1, h2]
    rfl
  · simp only [iterateReady, h1, h2]
    rfl

/-! Ready-handshake dedup theorems. -/

theorem handleReady_handled {h : HostState} {hints : InstanceHints}
    (hmem : h.handledReadyClients.contains hints.clientId = true) :
    handleReady h hints = (h, none) := by
  unfold handleReady
  rw [if_pos hmem]

theorem handleReady_contains_after (h : HostState) (hints : InstanceHints) :
    (handleReady h hints).1.handledReadyClients.contains hints.clientId = true := by
  by_cases hg : h.handledReadyClients.contains hints.clientId = true
  · rw [handleReady_handled hg]
    exact hg
  · unfold handleReady
    rw [if_neg hg]
    simp [List.contains_cons]

/-- C4: the host processes at most one ready handshake per clientId: a
ready from an already-handled clientId returns the state unchanged (in
particular players, assignment table, persisted slot and windows) and
produces no game_info reply; consequently re-running a ready right after
any ready from the same clientId is a no-op with no reply. -/
theorem c4_ready_dedup :
    (∀ (h : HostState) (hints : InstanceHints),
        h.handledReadyClients.contains hints.clientId = true →
        handleReady h hints = (h, none))
    ∧ (∀ (h : HostState) (hints : InstanceHints),
        handleReady (handleReady h hints).1 hints = ((handleReady h hints).1, none)) := by
  constructor
  · intro h hints hmem
    exact handleReady_handled hmem
  · intro h hints
    exact handleReady_handled (handleReady_contains_after h hints)

/-- Closed witness for C4 at a concrete already-handled client. -/
theorem c4_ready_dedup_witness :
    handleReady
        { state := createDefaultState, persisted := none, assignments := [],
          handledReadyClients := ["A"], clientWindows := [], isMultiplayer := true }
        { clientId := "A" }
      = ({ state := createDefaultState, persisted := none, assignments := [],
           handledReadyClients := ["A"], clientWindows := [], isMultiplayer := true },
         none) :=
  c4_ready_dedup.1
    { state := createDefaultState, persisted := none, assignments := [],
      handledReadyClients := ["A"], clientWindows := [], isMultiplayer := true }
    { clientId := "A" } (by decide)

/-! Player-identity resolution theorems. -/

/-- C2: handleReady resolves the player id with the precedence the spec
states -- nonempty explicit hint first, then a (nonempty) persisted
assignment for the clientId, then "1" in single-player mode, then in
multiplayer the first existing player whose id is not among the
assignment-table values, then a synthesized player (appended to the list)
while the list has fewer than 2 entries, then "1" once the cap is reached;
and from an empty-storage multiplayer host, three distinct clients receive
player ids "1", "2" and "1" over the full handshake pipeline. -/
theorem c2_resolve_precedence :
    (∀ (mp : Bool) (hints : InstanceHints) (assignments : List (String × String))
        (ps : List Player) (p : String),
        truthyStr hints.playerId = some p →
        resolvePlayerId mp hints assignments ps = (p, ps))
    ∧ (∀ (mp : Bool) (hints : InstanceHints) (assignments : List (String × String))
        (ps : List Player) (a : String),
        truthyStr hints.playerId = none →
        truthyStr (lookupAssign assignments hints.clientId) = some a →
        resolvePlayerId mp hints assignments ps = (a, ps))
    ∧ (∀ (hints : InstanceHints) (assignments : List (String × String)) (ps : List Player),
        truthyStr hints.playerId = none →
        truthyStr (lookupAssign assignments hints.clientId) = none →
        resolvePlayerId false hints assignments ps = ("1", ps))
    ∧ (∀ (hints : InstanceHints) (assignments : List (String × String)) (ps : List Player)
        (q : Player),
        truthyStr hints.playerId = none →
        truthyStr (lookupAssign assignments hints.clientId) = none →
        ps.find? (fun p => !((assignments.map Prod.snd).contains p.id)) = some q →
        resolvePlayerId true hints assignments ps = (q.id, ps))
    ∧ (∀ (hints : InstanceHints) (assignments : List (String × String)) (ps : List Player),
        truthyStr hints.playerId = none →
        truthyStr (lookupAssign assignments hints.clientId) = none →
        ps.find? (fun p => !((assignments.map Prod.snd).contains p.id)) = none →
        ps.length ≥ 2 →
        resolvePlayerId true hints assignments ps = ("1", ps))
    ∧ (∀ (hints : InstanceHints) (assignments : List (String × String)) (ps : List Player),
        truthyStr hints.playerId = none →
        truthyStr (lookupAssign assignments hints.clientId) = none →
        ps.find? (fun p => !((assignments.map Prod.snd).contains p.id)) = none →
        ps.length < 2 →
        resolvePlayerId true hints assignments ps
          = (toString (ps.length + 1),
             ps ++ [{ id := toString (ps.length + 1),
                      name := "Player " ++ toString (ps.length + 1) }]))
    ∧ ((handleReady (initHost true) { clientId := "clientA" }).2.map
          (fun gi => gi.player.id) = some "1"
       ∧ ((handleReady (handleReady (initHost true) { clientId := "clientA" }).1
            { clientId := "clientB" }).2.map (fun gi => gi.player.id)) = some "2"
       ∧ ((handleReady (handleReady (handleReady (initHost true)
            { clientId := "clientA" }).1 { clientId := "clientB" }).1
            { clientId := "clientC" }).2.map (fun gi => gi.player.id)) = some "1") := by
  refine ⟨?_, ?_, ?_, ?_, ?_, ?_, by decide, by decide, by decide⟩
  · intro mp hints assignments ps p hp
    unfold resolvePlayerId
    rw [hp]
  · intro mp hints assignments ps a hp ha
    unfold resolvePlayerId
    rw [hp, ha]
  · intro hints assignments ps hp ha
    unfold resolvePlayerId
    rw [hp, ha]
    rfl
  · intro hints assignments ps q hp ha hf
    unfold resolvePlayerId
    rw [hp, ha, if_neg (by simp), hf]
  · intro hints assignments ps hp ha hf hlen
    unfold resolvePlayerId
    rw [hp, ha, if_neg (by simp), hf, if_pos hlen]
  · intro hints assignments ps hp ha hf hlen
    unfold resolvePlayerId
    rw [hp, ha, if_neg (by simp), hf, if_neg (by omega)]

/-- Closed witness for C2: a nonempty explicit hint wins. -/
theorem c2_resolve_precedence_witness :
    resolvePlayerId true { clientId := "c", playerId := some "7" } [] DEFAULT_PLAYERS
      = ("7", DEFAULT_PLAYERS) :=
  c2_resolve_precedence.1 true { clientId := "c", playerId := some "7" } []
    DEFAULT_PLAYERS "7" (by decide)

/-! Save-state envelope theorems. -/

theorem saveGameState_state_gameState (h : HostState) (d : SaveData) (fid : String) :
    (handleSaveGameState h (some d) fid).1.state.gameState
      = d.gameState.map (fun gs =>
          { id := fid, gameState := gs, alertUserIds := d.alertUserIds }) := by
  cases d with
  | mk dgs dalert =>
    cases dgs with
    | none => rfl
    | some typed =>
      cases typed with
      | mk tps tcp tturn =>
        cases tps with
        | none =>
          cases tcp with
          | none =>
            cases tturn with
            | none => rfl
            | some t => rfl
          | some n => rfl
        | some ps =>
          cases tcp with
          | none =>
            cases tturn with
            | none =>
              simp only [handleSaveGameState]
              split
              · rfl
              · rfl
            | some t =>
              simp only [handleSaveGameState]
              split
              · rfl
              · rfl
          | some n =>
            simp only [handleSaveGameState]
            split
            · rfl
            · rfl

theorem saveGameState_broadcast (h : HostState) (d : SaveData) (fid : String) :
    (handleSaveGameState h (some d) fid).2
      = some (d.gameState.map (fun gs =>
          { id := fid, gameState := gs, alertUserIds := d.alertUserIds })) := rfl

/-- C7: every processed save wraps the payload in an envelope carrying
exactly the freshly generated id (never the previous envelope's id), both
in the persisted state and in the game_state_updated broadcast; hence two
consecutive saves whose generated ids differ yield envelopes with
different ids even when the gameState payloads are identical. -/
theorem c7_save_fresh_envelope_id (h : HostState) (gs : GamePayload)
    (alert : Option (List String)) (id1 id2 : String) (hne : id1 ≠ id2) :
    (handleSaveGameState h (some { gameState := some gs, alertUserIds := alert }) id1).2
      = some (some { id := id1, gameState := gs, alertUserIds := alert })
    ∧ (handleSaveGameState h
        (some { gameState := some gs, alertUserIds := alert }) id1).1.state.gameState
      = some { id := id1, gameState := gs, alertUserIds := alert }
    ∧ (handleSaveGameState
        (handleSaveGameState h (some { gameState := some gs, alertUserIds := alert }) id1).1
        (some { gameState := some gs, alertUserIds := alert }) id2).1.state.gameState
      = some { id := id2, gameState := gs, alertUserIds := alert }
    ∧ ({ id := id1, gameState := gs, alertUserIds := alert } : GameStateEnvelope).id
        ≠ ({ id := id2, gameState := gs, alertUserIds := alert } : GameStateEnvelope).id
    ∧ ({ id := id1, gameState := gs, alertUserIds := alert } : GameStateEnvelope).gameState
        = ({ id := id2, gameState := gs, alertUserIds := alert } : GameStateEnvelope).gameState := by
  refine ⟨?_, ?_, ?_, hne, rfl⟩
  · rw [saveGameState_broadcast]
    rfl
  · rw [saveGameState_state_gameState]
    rfl
  · rw [saveGameState_state_gameState]
    rfl

/-- Payload and save request used by the C7 witness. -/
def emptyGamePayload : GamePayload :=
  { players := none, currentPlayer := none, turn := none }

def c7WitnessSaveData : SaveData :=
  { gameState := some emptyGamePayload, alertUserIds := none }

/-- Closed witness for C7: two saves of the identical payload under two
distinct generateEnvelopeId outputs persist envelopes with distinct ids. -/
theorem c7_save_fresh_envelope_id_witness :
    (handleSaveGameState
        (handleSaveGameState (initHost true) (some c7WitnessSaveData)
          (generateEnvelopeId 1000 "aaaa")).1
        (some c7WitnessSaveData)
        (generateEnvelopeId 1000 "bbbb")).1.state.gameState
      = some { id := generateEnvelopeId 1000 "bbbb", gameState := emptyGamePayload,
               alertUserIds := none } :=
  (c7_save_fresh_envelope_id (initHost true) emptyGamePayload none
    (generateEnvelopeId 1000 "aaaa") (generateEnvelopeId 1000 "bbbb")
    (by decide)).2.2.1

/-! Storage-key theorems. -/

/-- C8 counterexample: for the game name "a.b" the source key replaces
the dot with an underscore, while the claim's stripping sanitizer would
remove it; the two keys differ. -/
theorem c8_counterexample :
    getGameStateKey "a.b" = "remix_game_state_a_b"
    ∧ "remix_game_state_" ++ specStripSanitize "a.b" = "remix_game_state_ab"
    ∧ getGameStateKey "a.b" ≠ "remix_game_state_" ++ specStripSanitize "a.b" := by
  refine ⟨by decide, by decide, by decide⟩

/-- C8 (amended): the canonical game-state storage key is the fixed prefix
remix_game_state_ followed by the game name with every character outside
[A-Za-z0-9-_] replaced by an underscore -- a length-preserving
substitution, not a strip -- and every character of the sanitized name
lies in the allowed class; the broadcast side channel uses the single
fixed global key, which is not derived from the game name. -/
theorem c8_storage_key_amended (name : String) :
    getGameStateKey name = "remix_game_state_" ++ sanitizeGameName name
    ∧ (sanitizeGameName name).length = name.length
    ∧ (sanitizeGameName name).data.all isAllowedKeyChar = true
    ∧ BROADCAST_STORAGE_KEY = "__remix_dev_host_broadcast__" := by
  refine ⟨rfl, ?_, ?_, rfl⟩
  · simp only [sanitizeGameName, String.length]
    exact List.length_map _ _
  · rw [List.all_eq_true]
    intro c hc
    simp only [sanitizeGameName] at hc
    rcases List.mem_map.mp hc with ⟨x, _, rfl⟩
    by_cases hA : isAllowedKeyChar x = true
    · rw [if_pos hA]
      exact hA
    · rw [if_neg hA]
      decide

/-! readPersistedState theorems. -/

/-- C9: readPersistedState accepts a persisted players list only when it
has at least 2 entries (then the whole record round-trips unchanged); any
shorter persisted list is silently replaced by the two default players --
including the single-entry list that a single-player ready handshake
itself persists after trimming, as the closed scenario shows. -/
theorem c9_read_persisted_min_two :
    (∀ st : StoredState, st.players.length ≥ 2 → readPersistedState (some st) = st)
    ∧ (∀ st : StoredState, st.players.length < 2 →
        (readPersistedState (some st)).players = DEFAULT_PLAYERS)
    ∧ ((handleReady (initHost false) { clientId := "A" }).1.persisted.map
        (fun st => st.players.length) = some 1
       ∧ (readPersistedState
            (handleReady (initHost false) { clientId := "A" }).1.persisted).players
          = DEFAULT_PLAYERS) := by
  refine ⟨?_, ?_, by decide, by decide⟩
  · intro st hlen
    cases st with
    | mk g p c =>
      simp only [readPersistedState]
      rw [if_pos hlen]
  · intro st hlen
    simp only [readPersistedState]
    rw [if_neg (by omega)]

/-- Closed witness for C9: a two-entry persisted list round-trips, a
one-entry persisted list is replaced by the defaults. -/
theorem c9_read_persisted_min_two_witness :
    readPersistedState (some (StoredState.mk none DEFAULT_PLAYERS none))
      = StoredState.mk none DEFAULT_PLAYERS none
    ∧ (readPersistedState
        (some (StoredState.mk none [Player.mk "1" "Player 1" none] none))).players
      = DEFAULT_PLAYERS :=
  ⟨c9_read_persisted_min_two.1 _ (by decide),
   c9_read_persisted_min_two.2.1 _ (by decide)⟩

/-! Multiplayer game-over frame theorems. -/

/-- C10: a multiplayer game-over clears exactly the persisted gameState,
currentPlayerId and the assignment table while leaving the players list,
the processed-ready dedup set and the registered client windows
untouched, so a ready re-sent by a clientId handled before the game-over
still gets no reply and changes nothing; only resetState clears the dedup
set, after which a ready from any client is processed again (it returns a
reply), and a save never touches the dedup set either. -/
theorem c10_gameover_frame (h : HostState) :
    (handleMultiplayerGameOver h).state.gameState = none
    ∧ (handleMultiplayerGameOver h).state.currentPlayerId = none
    ∧ (handleMultiplayerGameOver h).assignments = []
    ∧ (handleMultiplayerGameOver h).state.players = h.state.players
    ∧ (handleMultiplayerGameOver h).handledReadyClients = h.handledReadyClients
    ∧ (handleMultiplayerGameOver h).clientWindows = h.clientWindows
    ∧ (handleMultiplayerGameOver h).isMultiplayer = h.isMultiplayer
    ∧ (handleMultiplayerGameOver h).persisted = some (handleMultiplayerGameOver h).state
    ∧ (∀ hints : InstanceHints,
        h.handledReadyClients.contains hints.clientId = true →
        handleReady (handleMultiplayerGameOver h) hints
          = (handleMultiplayerGameOver h, none))
    ∧ (resetState h).handledReadyClients = []
    ∧ (∀ hints : InstanceHints, (handleReady (resetState h) hints).2.isSome = true)
    ∧ (∀ (d : Option SaveData) (fid : String),
        (handleSaveGameState h d fid).1.handledReadyClients = h.handledReadyClients) := by
  refine ⟨rfl, rfl, rfl, rfl, rfl, rfl, rfl, rfl, ?_, rfl, ?_, ?_⟩
  · intro hints hmem
    exact handleReady_handled hmem
  · intro hints
    unfold handleReady
    rw [if_neg (by simp [resetState])]
    rfl
  · intro d fid
    cases d with
    | none => rfl
    | some dd => rfl

/-- Closed witness for C10 at a concrete already-handled client. -/
theorem c10_gameover_frame_witness :
    handleReady
        (handleMultiplayerGameOver
          { state := createDefaultState, persisted := none, assignments := [("A", "1")],
            handledReadyClients := ["A"], clientWindows := ["A"], isMultiplayer := true })
        { clientId := "A" }
      = (handleMultiplayerGameOver
          { state := createDefaultState, persisted := none, assignments := [("A", "1")],
            handledReadyClients := ["A"], clientWindows := ["A"], isMultiplayer := true },
         none) :=
  (c10_gameover_frame
    { state := createDefaultState, persisted := none, assignments := [("A", "1")],
      handledReadyClients := ["A"], clientWindows := ["A"], isMultiplayer := true
    }).2.2.2.2.2.2.2.2.1 { clientId := "A" } (by decide)

/-! Player-cap invariant (claim about StoredState.players length). -/

/-- C1 counterexample: one multiplayer ready handshake carrying the
explicit player-id hint "3" grows the persisted players list to 3
entries, because the upsert appends any missing resolved player whenever
the host is multiplayer, bypassing the 2-player cap of the un-hinted
path; so the cap is not an invariant of all host operations. -/
theorem c1_counterexample :
    (applyOp (initHost true)
        (HostOp.ready { clientId := "A", playerId := some "3" })).state.players.length = 3
    ∧ (applyOp (initHost true)
        (HostOp.ready { clientId := "A", playerId := some "3" })).persisted.map
          (fun st => st.players.length) = some 3
    ∧ ¬ ((applyOp (initHost true)
        (HostOp.ready { clientId := "A", playerId := some "3" })).state.players.length ≤ 2) := by
  refine ⟨by decide, by decide, by decide⟩

/-- Benign host operations of the amended C1: ready handshakes carrying no
nonempty explicit playerId hint, and save payloads carrying no players
array of 2 or more entries; game-over and reset are always benign. -/
def benignOp : HostOp → Bool
  | HostOp.ready hints => (truthyStr hints.playerId).isNone
  | HostOp.save d _ =>
    match d with
    | none => true
    | some dd =>
      match dd.gameState with
      | none => true
      | some gp =>
        match gp.players with
        | none => true
        | some ps => decide (ps.length < 2)
  | HostOp.mpGameOver => true
  | HostOp.reset => true

/-- Inductive invariant of benign runs: player lists hold at most two
players whose ids lie in the default id set and are duplicate-free, both
in memory and in the persisted slot, and every assignment-table value lies
in the default id set. -/
def playersOk (ps : List Player) : Prop :=
  ps.length ≤ 2 ∧ (∀ p ∈ ps, p.id = "1" ∨ p.id = "2") ∧ (ps.map Player.id).Nodup

def GoodHost (h : HostState) : Prop :=
  playersOk h.state.players
  ∧ (∀ st ∈ h.persisted, playersOk st.players)
  ∧ (∀ e ∈ h.assignments, e.2 = "1" ∨ e.2 = "2")

theorem playersOk_default : playersOk DEFAULT_PLAYERS := by
  refine ⟨by decide, ?_, by decide⟩
  intro p hp
  fin_cases hp
  · exact Or.inl rfl
  · exact Or.inr rfl

theorem goodHost_init (mp : Bool) : GoodHost (initHost mp) := by
  refine ⟨playersOk_default, ?_, ?_⟩
  · intro st hst
    cases hst
  · intro e he
    cases he

theorem truthyStr_some {o : Option String} {a : String}
    (h : truthyStr o = some a) : o = some a := by
  cases o with
  | none => exact absurd h (by simp [truthyStr])
  | some s =>
    by_cases hs : s = ""
    · subst hs
      simp [truthyStr] at h
    · simpa [truthyStr, hs] using h

theorem lookupAssign_values {assignments : List (String × String)} {c a : String}
    (hok : ∀ e ∈ assignments, e.2 = "1" ∨ e.2 = "2")
    (h : lookupAssign assignments c = some a) : a = "1" ∨ a = "2" := by
  unfold lookupAssign at h
  cases hf : assignments.find? (fun e => e.1 == c) with
  | none => rw [hf] at h; exact absurd h (by simp)
  | some e =>
    rw [hf] at h
    have he : e ∈ assignments := List.mem_of_find?_eq_some hf
    have : e.2 = a := by simpa using h
    exact this ▸ hok e he

theorem setAssign_values {assignments : List (String × String)} {c v : String}
    (hok : ∀ e ∈ assignments, e.2 = "1" ∨ e.2 = "2") (hv : v = "1" ∨ v = "2") :
    ∀ e ∈ setAssign assignments c v, e.2 = "1" ∨ e.2 = "2" := by
  intro e he
  unfold setAssign at he
  by_cases hc : assignments.any (fun e => e.1 == c) = true
  · rw [if_pos hc] at he
    rcases List.mem_map.mp he with ⟨a, ha, rfl⟩
    by_cases hac : (a.1 == c) = true
    · rw [if_pos hac]
      exact hv
    · rw [if_neg hac]
      exact hok a ha
  · rw [if_neg hc] at he
    rcases List.mem_append.mp he with h1 | h1
    · exact hok e h1
    · rcases List.mem_singleton.mp h1 with rfl
      exact hv

theorem playersOk_read {p : Option StoredState}
    (hp : ∀ st ∈ p, playersOk st.players) :
    (readPersistedState p).players.length = 2
    ∧ (∀ q ∈ (readPersistedState p).players, q.id = "1" ∨ q.id = "2")
    ∧ ((readPersistedState p).players.map Player.id).Nodup := by
  cases p with
  | none =>
    refine ⟨by decide, ?_, by decide⟩
    intro q hq
    fin_cases hq
    · exact Or.inl rfl
    · exact Or.inr rfl
  | some st =>
    by_cases hlen : st.players.length ≥ 2
    · have h := hp st rfl
      simp only [readPersistedState]
      rw [if_pos hlen]
      exact ⟨le_antisymm h.1 hlen, h.2.1, h.2.2⟩
    · simp only [readPersistedState]
      rw [if_neg hlen]
      refine ⟨by decide, ?_, by decide⟩
      intro q hq
      fin_cases hq
      · exact Or.inl rfl
      · exact Or.inr rfl

theorem players_full {ps : List Player} (hlen : ps.length = 2)
    (hin : ∀ p ∈ ps, p.id = "1" ∨ p.id = "2") (hnd : (ps.map Player.id).Nodup)
    {v : String} (hv : v = "1" ∨ v = "2") : v ∈ ps.map Player.id := by
  match ps, hlen with
  | [a, b], _ =>
    have ha := hin a (by simp)
    have hb := hin b (by simp)
    have hab : a.id ≠ b.id := by
      simp only [List.map_cons, List.map_nil, List.nodup_cons] at hnd
      intro he
      exact hnd.1 (by simp [he])
    simp only [List.map_cons, List.map_nil, List.mem_cons, List.not_mem_nil, or_false]
    rcases ha with ha | ha <;> rcases hb with hb | hb
    · exact absurd (ha.trans hb.symm) hab
    · rcases hv with rfl | rfl
      · exact Or.inl ha.symm
      · exact Or.inr hb.symm
    · rcases hv with rfl | rfl
      · exact Or.inr hb.symm
      · exact Or.inl ha.symm
    · exact absurd (ha.trans hb.symm) hab

theorem resolvePlayerId_benign {mp : Bool} {hints : InstanceHints}
    {assignments : List (String × String)} {ps : List Player}
    (hhint : truthyStr hints.playerId = none)
    (hassign : ∀ e ∈ assignments, e.2 = "1" ∨ e.2 = "2")
    (hlen : ps.length = 2)
    (hin : ∀ p ∈ ps, p.id = "1" ∨ p.id = "2")
    (hnd : (ps.map Player.id).Nodup) :
    (resolvePlayerId mp hints assignments ps).2 = ps
    ∧ ((resolvePlayerId mp hints assignments ps).1 = "1"
       ∨ (resolvePlayerId mp hints assignments ps).1 = "2")
    ∧ (resolvePlayerId mp hints assignments ps).1 ∈ ps.map Player.id := by
  unfold resolvePlayerId
  rw [hhint]
  cases hlk : truthyStr (lookupAssign assignments hints.clientId) with
  | some a =>
    have hval : a = "1" ∨ a = "2" :=
      lookupAssign_values hassign (truthyStr_some hlk)
    exact ⟨rfl, hval, players_full hlen hin hnd hval⟩
  | none =>
    cases mp with
    | false =>
      rw [if_pos rfl]
      have hv : ("1" : String) = "1" ∨ ("1" : String) = "2" := Or.inl rfl
      exact ⟨rfl, hv, players_full hlen hin hnd hv⟩
    | true =>
      rw [if_neg (by simp)]
      cases hf : ps.find? (fun p => !((assignments.map Prod.snd).contains p.id)) with
      | some available =>
        have hmem : available ∈ ps := List.mem_of_find?_eq_some hf
        exact ⟨rfl, hin available hmem, List.mem_map_of_mem Player.id hmem⟩
      | none =>
        rw [if_pos (by omega)]
        have hv : ("1" : String) = "1" ∨ ("1" : String) = "2" := Or.inl rfl
        exact ⟨rfl, hv, players_full hlen hin hnd hv⟩

theorem jsFindIndex_isSome_of_mem {rid : String} {ps : List Player}
    (hmem : rid ∈ ps.map Player.id) :
    (jsFindIndex (fun p => p.id == rid) ps).isSome = true := by
  induction ps with
  | nil => simp at hmem
  | cons q rest ih =>
    by_cases hq : (q.id == rid) = true
    · simp [jsFindIndex, hq]
    · simp only [List.map_cons, List.mem_cons] at hmem
      rcases hmem with h1 | h1
      · exact absurd (beq_iff_eq.mpr h1.symm) (by simpa using hq)
      · simp only [jsFindIndex, hq, Bool.false_eq_true, if_false]
        rcases Option.isSome_iff_exists.mp (ih h1) with ⟨j, hj⟩
        simp [hj]

theorem upsertPlayer_cons_of_ne {mp : Bool} {pn : Option String} {rid : String}
    {q : Player} {rest : List Player} (hq : (q.id == rid) = false)
    (hsome : (jsFindIndex (fun p => p.id == rid) rest).isSome = true) :
    upsertPlayer mp pn rid (q :: rest) = q :: upsertPlayer mp pn rid rest := by
  rcases Option.isSome_iff_exists.mp hsome with ⟨j, hj⟩
  unfold upsertPlayer
  simp only [jsFindIndex, hq, Bool.false_eq_true, if_false, hj, Option.map_some',
    List.get?_cons_succ]
  cases truthyStr pn with
  | none => rfl
  | some nm =>
    cases rest.get? j with
    | none => rfl
    | some old =>
      by_cases hname : old.name ≠ nm
      · simp [hname, List.set_cons_succ]
      · simp [hname]

theorem upsertPlayer_ids_of_mem (mp : Bool) (pn : Option String) (rid : String)
    (ps : List Player) (hmem : rid ∈ ps.map Player.id) :
    (upsertPlayer mp pn rid ps).map Player.id = ps.map Player.id := by
  induction ps with
  | nil => simp at hmem
  | cons q rest ih =>
    by_cases hq : (q.id == rid) = true
    · unfold upsertPlayer
      simp only [jsFindIndex, hq, if_true]
      cases truthyStr pn with
      | none => rfl
      | some nm =>
        simp only [List.get?_cons_zero]
        by_cases hname : q.name ≠ nm
        · rw [if_pos hname, List.set_cons_zero]
          simp
        · rw [if_neg hname]
    · rw [Bool.not_eq_true] at hq
      simp only [List.map_cons, List.mem_cons] at hmem
      rcases hmem with h1 | h1
      · exact absurd (beq_iff_eq.mpr h1.symm) (by simp [hq])
      · rw [upsertPlayer_cons_of_ne hq (jsFindIndex_isSome_of_mem h1)]
        simp only [List.map_cons]
        rw [ih h1]

theorem playersOk_upsert {mp : Bool} {pn : Option String} {rid : String}
    {ps : List Player} (hmem : rid ∈ ps.map Player.id)
    (hlen : ps.length = 2)
    (hin : ∀ p ∈ ps, p.id = "1" ∨ p.id = "2")
    (hnd : (ps.map Player.id).Nodup) :
    (upsertPlayer mp pn rid ps).length = 2
    ∧ (∀ p ∈ upsertPlayer mp pn rid ps, p.id = "1" ∨ p.id = "2")
    ∧ ((upsertPlayer mp pn rid ps).map Player.id).Nodup := by
  have hids := upsertPlayer_ids_of_mem mp pn rid ps hmem
  refine ⟨?_, ?_, ?_⟩
  · have : ((upsertPlayer mp pn rid ps).map Player.id).length
        = (ps.map Player.id).length := by rw [hids]
    simpa [List.length_map, hlen] using this
  · intro p hp
    have : p.id ∈ (upsertPlayer mp pn rid ps).map Player.id :=
      List.mem_map_of_mem Player.id hp
    rw [hids] at this
    rcases List.mem_map.mp this with ⟨x, hx, hxe⟩
    rcases hin x hx with h1 | h1
    · exact Or.inl (hxe ▸ h1)
    · exact Or.inr (hxe ▸ h1)
  · rw [hids]
    exact hnd

theorem mem_some_good {st2 : StoredState} (hok : playersOk st2.players) :
    ∀ st ∈ (some st2 : Option StoredState), playersOk st.players := by
  intro st hst
  have h2 : st2 = st := Option.some.inj hst
  exact h2 ▸ hok

theorem handleReady_state_eq {h : HostState} {hints : InstanceHints}
    (hgd : ¬ h.handledReadyClients.contains hints.clientId = true) :
    (handleReady h hints).1 =
      { state := { readPersistedState h.persisted with players := readyPlayers h hints },
        persisted := some { readPersistedState h.persisted with
                            players := readyPlayers h hints },
        assignments := setAssign h.assignments hints.clientId (readyResolved h hints).1,
        handledReadyClients := hints.clientId :: h.handledReadyClients,
        clientWindows := registerClientWindow h.clientWindows hints.clientId,
        isMultiplayer := h.isMultiplayer } := by
  unfold handleReady
  rw [if_neg hgd]

theorem readyPlayers_good {h : HostState} {hints : InstanceHints}
    (hgood : GoodHost h) (hb : truthyStr hints.playerId = none) :
    playersOk (readyPlayers h hints)
    ∧ (h.isMultiplayer = false → (readyPlayers h hints).length = 1)
    ∧ ((readyResolved h hints).1 = "1" ∨ (readyResolved h hints).1 = "2") := by
  obtain ⟨hl0, hin0, hnd0⟩ := playersOk_read hgood.2.1
  have hres := @resolvePlayerId_benign h.isMultiplayer hints h.assignments
    (readPersistedState h.persisted).players hb hgood.2.2 hl0 hin0 hnd0
  have hr2 : (readyResolved h hints).2 = (readPersistedState h.persisted).players := hres.1
  have hrv : (readyResolved h hints).1 = "1" ∨ (readyResolved h hints).1 = "2" := hres.2.1
  have hrmem : (readyResolved h hints).1
      ∈ (readPersistedState h.persisted).players.map Player.id := hres.2.2
  have hup := @playersOk_upsert h.isMultiplayer hints.playerName
    (readyResolved h hints).1 (readPersistedState h.persisted).players
    hrmem hl0 hin0 hnd0
  have hupE : readyUpserted h hints
      = upsertPlayer h.isMultiplayer hints.playerName (readyResolved h hints).1
          (readPersistedState h.persisted).players := by
    unfold readyUpserted
    rw [hr2]
  have hl2 : (readyUpserted h hints).length = 2 := by rw [hupE]; exact hup.1
  have hin2 : ∀ p ∈ readyUpserted h hints, p.id = "1" ∨ p.id = "2" := by
    rw [hupE]; exact hup.2.1
  have hnd2 : ((readyUpserted h hints).map Player.id).Nodup := by
    rw [hupE]; exact hup.2.2
  unfold readyPlayers
  by_cases hmp : h.isMultiplayer = false
  · rw [if_pos ⟨hmp, by omega⟩]
    refine ⟨⟨?_, ?_, ?_⟩, fun _ => ?_, hrv⟩
    · rw [List.length_take]; omega
    · intro p hp
      exact hin2 p (List.take_subset 1 (readyUpserted h hints) hp)
    · rw [List.map_take]
      exact List.Nodup.sublist (List.take_sublist 1 _) hnd2
    · rw [List.length_take]; omega
  · rw [if_neg (fun hcon => hmp hcon.1)]
    exact ⟨⟨by omega, hin2, hnd2⟩, fun hcon => absurd hcon hmp, hrv⟩

theorem handleReady_good {h : HostState} {hints : InstanceHints}
    (hgood : GoodHost h) (hb : truthyStr hints.playerId = none) :
    GoodHost (handleReady h hints).1
    ∧ (h.isMultiplayer = false →
        ¬ h.handledReadyClients.contains hints.clientId = true →
        (handleReady h hints).1.state.players.length = 1) := by
  by_cases hgd : h.handledReadyClients.contains hints.clientId = true
  · rw [handleReady_handled hgd]
    exact ⟨hgood, fun _ hnot => absurd hgd hnot⟩
  · have hrp := readyPlayers_good hgood hb
    rw [handleReady_state_eq hgd]
    refine ⟨⟨hrp.1, mem_some_good hrp.1, setAssign_values hgood.2.2 hrp.2.2⟩, ?_⟩
    intro hmp _
    exact hrp.2.1 hmp

theorem saveGameState_frame {h : HostState} {d : Option SaveData} {fid : String}
    (hb : benignOp (HostOp.save d fid) = true) :
    (handleSaveGameState h d fid).1.state.players = h.state.players
    ∧ (handleSaveGameState h d fid).1.assignments = h.assignments
    ∧ ((handleSaveGameState h d fid).1.persisted = h.persisted
       ∨ (handleSaveGameState h d fid).1.persisted
         = some ((handleSaveGameState h d fid).1.state)) := by
  cases d with
  | none => exact ⟨rfl, rfl, Or.inl rfl⟩
  | some dd =>
    cases dd with
    | mk dgs dalert =>
      cases dgs with
      | none => exact ⟨rfl, rfl, Or.inr rfl⟩
      | some typed =>
        cases typed with
        | mk tps tcp tturn =>
          cases tps with
          | none =>
            cases tcp with
            | none =>
              cases tturn with
              | none => exact ⟨rfl, rfl, Or.inr rfl⟩
              | some t => exact ⟨rfl, rfl, Or.inr rfl⟩
            | some n => exact ⟨rfl, rfl, Or.inr rfl⟩
          | some ps =>
            have hlt : ps.length < 2 := by
              simp only [benignOp, decide_eq_true_eq] at hb
              exact hb
            have hni : ¬ ps.length ≥ 2 := by omega
            cases tcp with
            | none =>
              cases tturn with
              | none =>
                refine ⟨?_, rfl, Or.inr rfl⟩
                simp only [handleSaveGameState]
                rw [if_neg hni]
              | some t =>
                refine ⟨?_, rfl, Or.inr rfl⟩
                simp only [handleSaveGameState]
                rw [if_neg hni]
            | some n =>
              refine ⟨?_, rfl, Or.inr rfl⟩
              simp only [handleSaveGameState]
              rw [if_neg hni]

theorem save_good {h : HostState} {d : Option SaveData} {fid : String}
    (hgood : GoodHost h) (hb : benignOp (HostOp.save d fid) = true) :
    GoodHost (handleSaveGameState h d fid).1 := by
  obtain ⟨hp, ha, hper⟩ := @saveGameState_frame h d fid hb
  refine ⟨?_, ?_, ?_⟩
  · rw [playersOk, hp]
    exact hgood.1
  · rcases hper with hper | hper
    · rw [hper]
      exact hgood.2.1
    · rw [hper]
      apply mem_some_good
      rw [playersOk, hp]
      exact hgood.1
  · rw [ha]
    exact hgood.2.2

theorem gameOver_good {h : HostState} (hgood : GoodHost h) :
    GoodHost (handleMultiplayerGameOver h) := by
  refine ⟨hgood.1, mem_some_good hgood.1, ?_⟩
  intro e he
  cases he

theorem reset_good (h : HostState) : GoodHost (resetState h) := by
  refine ⟨playersOk_default, mem_some_good playersOk_default, ?_⟩
  intro e he
  cases he

theorem applyOp_good {h : HostState} {op : HostOp}
    (hgood : GoodHost h) (hb : benignOp op = true) : GoodHost (applyOp h op) := by
  cases op with
  | ready hints =>
    have hb' : truthyStr hints.playerId = none := by
      simpa [benignOp, Option.isNone_iff_eq_none] using hb
    exact (handleReady_good hgood hb').1
  | save d fid => exact save_good hgood hb
  | mpGameOver => exact gameOver_good hgood
  | reset => exact reset_good h

theorem runOps_good {ops : List HostOp} {h : HostState}
    (hgood : GoodHost h) (hb : ops.all benignOp = true) : GoodHost (runOps h ops) := by
  induction ops generalizing h with
  | nil => exact hgood
  | cons op rest ih =>
    rw [List.all_cons, Bool.and_eq_true] at hb
    exact ih (applyOp_good hgood hb.1) hb.2

theorem applyOp_isMultiplayer (h : HostState) (op : HostOp) :
    (applyOp h op).isMultiplayer = h.isMultiplayer := by
  cases op with
  | ready hints =>
    by_cases hgd : h.handledReadyClients.contains hints.clientId = true
    · simp only [applyOp]
      rw [handleReady_handled hgd]
    · simp only [applyOp]
      rw [handleReady_state_eq hgd]
  | save d fid =>
    cases d with
    | none => rfl
    | some dd => rfl
  | mpGameOver => rfl
  | reset => rfl

theorem runOps_isMultiplayer (h : HostState) (ops : List HostOp) :
    (runOps h ops).isMultiplayer = h.isMultiplayer := by
  induction ops generalizing h with
  | nil => rfl
  | cons op rest ih =>
    have : runOps h (op :: rest) = runOps (applyOp h op) rest := rfl
    rw [this, ih (applyOp h op), applyOp_isMultiplayer]

/-- C1 (amended): restricted to benign host operations -- ready handshakes
carrying no nonempty explicit playerId hint and save payloads carrying no
players array of 2 or more entries -- the players list of the host state
and of every persisted StoredState never exceeds 2 entries in any run from
a fresh host; and on a single-player host every processed (not
deduplicated) benign ready handshake leaves exactly 1 entry.  Outside
these restrictions the cap fails (see the counterexample), and even in
single-player mode the reset and initial states hold the 2 default
players, so only the ready-handshake part of the single-player clause
survives. -/
theorem c1_players_cap_amended :
    (∀ (mp : Bool) (ops : List HostOp), ops.all benignOp = true →
        (runOps (initHost mp) ops).state.players.length ≤ 2
        ∧ (∀ st ∈ (runOps (initHost mp) ops).persisted, st.players.length ≤ 2))
    ∧ (∀ (ops : List HostOp) (hints : InstanceHints),
        ops.all benignOp = true →
        truthyStr hints.playerId = none →
        ¬ (runOps (initHost false) ops).handledReadyClients.contains hints.clientId = true →
        (runOps (initHost false)
          (ops ++ [HostOp.ready hints])).state.players.length = 1) := by
  constructor
  · intro mp ops hb
    have hg := runOps_good (goodHost_init mp) hb
    exact ⟨hg.1.1, fun st hst => (hg.2.1 st hst).1⟩
  · intro ops hints hb hhint hnot
    have hg := runOps_good (goodHost_init false) hb
    have hmp : (runOps (initHost false) ops).isMultiplayer = false :=
      runOps_isMultiplayer (initHost false) ops
    have hsplit : runOps (initHost false) (ops ++ [HostOp.ready hints])
        = (handleReady (runOps (initHost false) ops) hints).1 := by
      unfold runOps
      rw [List.foldl_append]
      rfl
    rw [hsplit]
    exact (handleReady_good hg hhint).2 hmp hnot

/-- Closed witness for the amended C1: a two-operation benign multiplayer
run respects the cap, and a benign single-player ready from a fresh host
leaves exactly one player. -/
theorem c1_players_cap_amended_witness :
    (runOps (initHost true)
        [HostOp.ready { clientId := "A" }, HostOp.mpGameOver]).state.players.length ≤ 2
    ∧ (runOps (initHost false)
        ([] ++ [HostOp.ready { clientId := "A" }])).state.players.length = 1 :=
  ⟨(c1_players_cap_amended.1 true
      [HostOp.ready { clientId := "A" }, HostOp.mpGameOver] (by decide)).1,
   c1_players_cap_amended.2 [] { clientId := "A" } (by decide) (by decide) (by decide)⟩

end Remix
